import Mathlib

/-!
Shallow embedding of streamduck's `streamduck-core/src/config.rs`.

The Rust store keeps three `RwLock<HashMap<..>>` maps (plugin settings,
loaded device configs, loaded image collections) plus the on-disk files.
Since every operation takes the locks it needs and releases them before
returning, each public method is modelled as a pure function from a
`ConfigState` to a result and a new `ConfigState`.  `HashMap` is modelled
as an association list with no duplicate keys; `insertA` replaces the
entry in place, `removeA` removes it, `lookupA` finds it.
-/

set_option autoImplicit false

universe u v

/-- Association-list lookup, modelling `HashMap::get`. -/
def lookupA {κ : Type u} {α : Type v} [DecidableEq κ] : List (κ × α) → κ → Option α
  | [], _ => none
  | p :: rest, k => if p.1 = k then some p.2 else lookupA rest k

/-- Association-list key membership, modelling `HashMap::contains_key`. -/
def containsKey {κ : Type u} {α : Type v} [DecidableEq κ] (m : List (κ × α)) (k : κ) : Bool :=
  (lookupA m k).isSome

/-- Association-list insert, modelling `HashMap::insert`: replaces the entry
for the key in place, appends a fresh entry otherwise. -/
def insertA {κ : Type u} {α : Type v} [DecidableEq κ] : List (κ × α) → κ → α → List (κ × α)
  | [], k, v => [(k, v)]
  | p :: rest, k, v => if p.1 = k then (k, v) :: rest else p :: insertA rest k v

/-- Association-list removal, modelling `HashMap::remove`. -/
def removeA {κ : Type u} {α : Type v} [DecidableEq κ] : List (κ × α) → κ → List (κ × α)
  | [], _ => []
  | p :: rest, k => if p.1 = k then rest else p :: removeA rest k

/-- Well-formedness of a modelled `HashMap`: keys are distinct. -/
abbrev KeysNodup {κ : Type u} {α : Type v} (m : List (κ × α)) : Prop :=
  (m.map Prod.fst).Nodup

/-- Number of entries stored under a key. -/
def countKey {κ : Type u} {α : Type v} [DecidableEq κ] (m : List (κ × α)) (k : κ) : Nat :=
  (m.filter (fun p => p.1 = k)).length

/-- Two maps (with possibly different value types) have the same key set. -/
def sameKeys {κ : Type u} {α β : Type v} [DecidableEq κ] (m : List (κ × α)) (c : List (κ × β)) : Prop :=
  ∀ k, containsKey m k = containsKey c k

/-- Modelled from the spec: an external decoded image (`DynamicImage` of the
image crate), opaque to the core. -/
structure DynamicImage where
  data : String
deriving DecidableEq, Repr

/-- Modelled from the spec: the runtime (decoded, device-sized) image form
`SDImage` of `crate::images`, opaque to the core apart from conversions. -/
structure SDImage where
  data : String
  size : Nat × Nat
deriving DecidableEq, Repr

/-- Modelled from the spec: the serialized image form `SDSerializedImage` of
`crate::images`.  Decoding back to the runtime form may fail (the spec:
"conversion failure is silently skipped"), so a serialized image is either a
faithfully encoded runtime image or a corrupt blob. -/
inductive SDSerializedImage where
  | ok (img : SDImage)
  | corrupt (code : Nat)
deriving DecidableEq, Repr

/-- Modelled from the spec: the infallible `SDImage -> SDSerializedImage`
conversion (`image.into()`). -/
def SDImage.into (i : SDImage) : SDSerializedImage := .ok i

/-- Modelled from the spec: the fallible `SDSerializedImage -> SDImage`
conversion (`image.try_into()`). -/
def SDSerializedImage.tryInto : SDSerializedImage → Option SDImage
  | .ok i => some i
  | .corrupt _ => none

/-- Modelled from the spec: the opaque button-panel layout (`RawButtonPanel`). -/
abbrev RawButtonPanel := Nat

/-- Modelled from the spec: an opaque JSON payload (`serde_json::Value`). -/
inductive Value where
  | null
  | num (n : Int)
  | str (s : String)
deriving DecidableEq, Repr

/-- Modelled from the spec: `hash_str` of `crate::util`, the deterministic
content address of an encoded image string. -/
def hash_str (s : String) : String := "h:" ++ s

/-- Modelled from the spec: `hash_image` of `crate::util`, the deterministic
content address of a processed image. -/
def hash_image : SDSerializedImage → String
  | .ok i => "p:" ++ i.data
  | .corrupt n => "c:" ++ toString n

/-- Modelled from the spec: base64 decode plus validation
(`SDImage::from_base64`); strings whose first character is the marker char
model undecodable input. -/
def SDImage.from_base64 (s : String) (size : Nat × Nat) : Option SDImage :=
  if s.data.head? = some (Char.ofNat 33) then none else some ⟨s, size⟩

/-- Modelled from the spec: resizing a decoded image to device dimensions
(`resize_for_streamdeck` of `crate::thread::util`). -/
def resize_for_streamdeck (size : Nat × Nat) (img : DynamicImage) : SDImage :=
  ⟨img.data, size⟩

/-- Device kinds of the external `streamdeck` crate. -/
inductive Kind where
  | Original
  | OriginalV2
  | Mini
  | Mk2
  | Xl
deriving DecidableEq, Repr

/-- Modelled from the spec: product-id constant of the `streamdeck` crate. -/
def pids.ORIGINAL_V2 : Nat := 109

/-- Modelled from the spec: product-id constant of the `streamdeck` crate. -/
def pids.MINI : Nat := 99

/-- Modelled from the spec: product-id constant of the `streamdeck` crate. -/
def pids.MK2 : Nat := 128

/-- Modelled from the spec: product-id constant of the `streamdeck` crate. -/
def pids.XL : Nat := 108

/-- Modelled from the spec: `Kind::image_size` of the `streamdeck` crate. -/
def image_size : Kind → Nat × Nat
  | .Original => (72, 72)
  | .OriginalV2 => (72, 72)
  | .Mini => (80, 80)
  | .Mk2 => (72, 72)
  | .Xl => (96, 96)

/-- `DeviceConfig`: the persisted record of one device (config.rs). -/
structure DeviceConfig where
  vid : Nat
  pid : Nat
  serial : String
  brightness : Nat
  layout : RawButtonPanel
  images : List (String × SDSerializedImage)
  plugin_data : List (String × Value)
deriving DecidableEq, Repr

/-- `DeviceConfig::kind`: classifies the device from its `pid`, falling back
to `Original` on an unrecognized id (config.rs). -/
def DeviceConfig.kind (c : DeviceConfig) : Kind :=
  if c.pid = pids.ORIGINAL_V2 then .OriginalV2
  else if c.pid = pids.MINI then .Mini
  else if c.pid = pids.MK2 then .Mk2
  else if c.pid = pids.XL then .Xl
  else .Original

/-- `ConfigError` of config.rs; the payloads of the wrapped external errors
are modelled as numeric codes. -/
inductive ConfigError where
  | IoError (code : Nat)
  | ParseError (code : Nat)
  | DeviceNotFound
deriving DecidableEq, Repr

/-- Modelled from the spec: a file name in the device-config directory, split
as the external path API does into stem and extension, so that
`format!("{}.json", serial)` becomes stem `serial` with extension `json`. -/
structure FileName where
  stem : String
  ext : Option String
deriving DecidableEq, Repr

/-- The `extension == "json"` test of `reload_device_configs`. -/
def FileName.extIsJson (n : FileName) : Bool := n.ext = some "json"

/-- Modelled from the spec: the content of a device-config file, which either
deserializes to a record or is malformed. -/
inductive FileContent where
  | record (d : DeviceConfig)
  | malformed (code : Nat)
deriving DecidableEq, Repr

/-- Modelled from the spec: `serde_json::from_str::<DeviceConfig>` on a file's
content. -/
def parseRecord : FileContent → Except Nat DeviceConfig
  | .record d => .ok d
  | .malformed e => .error e

/-- An `ImageCollection`: identifier to runtime image (the shared
`Arc<RwLock<HashMap<String, SDImage>>>` behind `crate::ImageCollection`). -/
abbrev ImgColl := List (String × SDImage)

/-- The whole store: the three in-memory maps of `Config`, the device-config
directory, and the plugin-settings file. -/
structure ConfigState where
  plugin_settings : List (String × Value)
  loaded_configs : List (String × DeviceConfig)
  loaded_images : List (String × ImgColl)
  fs : List (FileName × FileContent)
  plugin_settings_file : List (String × Value)
deriving DecidableEq, Repr

/-- `Config::get_plugin_settings::<T>`: looks up `T::NAME`, deserializes the
stored payload, returns `none` if absent or on deserialization failure.  The
generic type is modelled by its deserializer `fromValue`. -/
def get_plugin_settings {T : Type} (st : ConfigState) (name : String)
    (fromValue : Value → Option T) : Option T :=
  match lookupA st.plugin_settings name with
  | none => none
  | some v => fromValue v

/-- `Config::write_plugin_settings`: persists the whole plugin-settings map. -/
def write_plugin_settings (st : ConfigState) : ConfigState :=
  { st with plugin_settings_file := st.plugin_settings }

/-- `Config::set_plugin_settings::<T>`: serializes the value, stores it under
`T::NAME`, then persists the whole map.  The generic type is modelled by its
serializer `toValue`. -/
def set_plugin_settings {T : Type} (st : ConfigState) (name : String)
    (toValue : T → Value) (value : T) : ConfigState :=
  write_plugin_settings
    { st with plugin_settings := insertA st.plugin_settings name (toValue value) }

/-- `Config::get_device_config`. -/
def get_device_config (st : ConfigState) (serial : String) : Option DeviceConfig :=
  lookupA st.loaded_configs serial

/-- `Config::set_device_config`: replaces the contents of an existing handle
or registers a new one. -/
def set_device_config (st : ConfigState) (serial : String) (config : DeviceConfig) : ConfigState :=
  { st with loaded_configs := insertA st.loaded_configs serial config }

/-- `Config::get_image_collection`: returns the collection for the serial,
lazily creating an empty one. -/
def get_image_collection (st : ConfigState) (serial : String) : ImgColl × ConfigState :=
  match lookupA st.loaded_images serial with
  | some c => (c, st)
  | none => ([], { st with loaded_images := insertA st.loaded_images serial [] })

/-- First loop of `Config::update_collection`: for every entry of the record's
`images` missing from the collection, try to convert the serialized form to the
runtime form and insert it; conversion failure is skipped. -/
def syncRecordToCollection : List (String × SDSerializedImage) → ImgColl → ImgColl
  | [], c => c
  | (k, v) :: rest, c =>
    syncRecordToCollection rest
      (if containsKey c k then c
       else
         match v.tryInto with
         | some i => insertA c k i
         | none => c)

/-- Second loop of `Config::update_collection`: every entry of the collection
missing from the record's `images` is serialized and inserted there. -/
def syncCollectionToRecord : ImgColl → List (String × SDSerializedImage) → List (String × SDSerializedImage)
  | [], m => m
  | (k, i) :: rest, m =>
    syncCollectionToRecord rest (if containsKey m k then m else insertA m k (SDImage.into i))

/-- `Config::update_collection`: reconciles a record with the collection
registered under the record's `serial` field; a missing collection makes the
whole operation a no-op. -/
def update_collection (cfg : DeviceConfig) (colls : List (String × ImgColl)) :
    DeviceConfig × List (String × ImgColl) :=
  match lookupA colls cfg.serial with
  | none => (cfg, colls)
  | some coll =>
    let coll' := syncRecordToCollection cfg.images coll
    let images' := syncCollectionToRecord coll' cfg.images
    ({ cfg with images := images' }, insertA colls cfg.serial coll')

/-- `Config::remove_from_collection`. -/
def remove_from_collection (st : ConfigState) (serial : String) (identifier : String) : ConfigState :=
  match lookupA st.loaded_images serial with
  | none => st
  | some coll => { st with loaded_images := insertA st.loaded_images serial (removeA coll identifier) }

/-- `Config::reload_device_config`: clears (creating if needed) the serial's
image collection, reads `<path>/<serial>.json`, parses it, installs the record
under the serial argument and reconciles.  Read and parse failures are
returned after the collection was already cleared. -/
def reload_device_config (st : ConfigState) (serial : String) :
    Except ConfigError Unit × ConfigState :=
  let st0 := { st with loaded_images := insertA st.loaded_images serial [] }
  match lookupA st0.fs ⟨serial, some "json"⟩ with
  | none => (.error (.IoError 0), st0)
  | some content =>
    match parseRecord content with
    | .error e => (.error (.ParseError e), st0)
    | .ok device =>
      let st1 := { st0 with loaded_configs := insertA st0.loaded_configs serial device }
      let res := update_collection device st1.loaded_images
      (.ok (), { st1 with
                   loaded_configs := insertA st1.loaded_configs serial res.1,
                   loaded_images := res.2 })

/-- Loop body of `Config::reload_device_configs` over the directory entries:
files whose extension is not `json` are skipped; a parse failure aborts the
iteration keeping the state reached so far; each parsed record is registered
under the `serial` field of its content. -/
def reloadAllAux : ConfigState → List (FileName × FileContent) → Except ConfigError Unit × ConfigState
  | st, [] => (.ok (), st)
  | st, (name, content) :: rest =>
    if name.extIsJson then
      match parseRecord content with
      | .error e => (.error (.ParseError e), st)
      | .ok device =>
        let st1 := { st with loaded_images := insertA st.loaded_images device.serial [] }
        let st2 := { st1 with loaded_configs := insertA st1.loaded_configs device.serial device }
        let res := update_collection device st2.loaded_images
        reloadAllAux
          { st2 with
              loaded_configs := insertA st2.loaded_configs device.serial res.1,
              loaded_images := res.2 }
          rest
    else reloadAllAux st rest

/-- `Config::reload_device_configs`: enumerates the device-config directory. -/
def reload_device_configs (st : ConfigState) : Except ConfigError Unit × ConfigState :=
  reloadAllAux st st.fs

/-- `Config::save_device_config`: reconciles and writes the record, failing
with `DeviceNotFound` for an unregistered serial. -/
def save_device_config (st : ConfigState) (serial : String) :
    Except ConfigError Unit × ConfigState :=
  match lookupA st.loaded_configs serial with
  | none => (.error .DeviceNotFound, st)
  | some cfg =>
    let res := update_collection cfg st.loaded_images
    (.ok (), { st with
                 loaded_configs := insertA st.loaded_configs serial res.1,
                 loaded_images := res.2,
                 fs := insertA st.fs ⟨serial, some "json"⟩ (.record res.1) })

/-- `Config::add_image`: content-addresses the encoded string, decodes it at
the device's image size, inserts it into the record and reconciles. -/
def add_image (st : ConfigState) (serial : String) (image : String) :
    Option String × ConfigState :=
  match lookupA st.loaded_configs serial with
  | none => (none, st)
  | some cfg =>
    let identifier := hash_str image
    match SDImage.from_base64 image (image_size cfg.kind) with
    | none => (none, st)
    | some img =>
      let cfg' := { cfg with images := insertA cfg.images identifier (SDImage.into img) }
      let res := update_collection cfg' st.loaded_images
      (some identifier,
       { st with
           loaded_configs := insertA st.loaded_configs serial res.1,
           loaded_images := res.2 })

/-- `Config::add_image_encode`: resizes the processed image, content-addresses
its serialized form, inserts it and reconciles. -/
def add_image_encode (st : ConfigState) (serial : String) (image : DynamicImage) :
    Option String × ConfigState :=
  match lookupA st.loaded_configs serial with
  | none => (none, st)
  | some cfg =>
    let serialized := SDImage.into (resize_for_streamdeck (image_size cfg.kind) image)
    let identifier := hash_image serialized
    let cfg' := { cfg with images := insertA cfg.images identifier serialized }
    let res := update_collection cfg' st.loaded_images
    (some identifier,
     { st with
         loaded_configs := insertA st.loaded_configs serial res.1,
         loaded_images := res.2 })

/-- `Config::get_images`: snapshot of the record's serialized images. -/
def get_images (st : ConfigState) (serial : String) : Option (List (String × SDSerializedImage)) :=
  (lookupA st.loaded_configs serial).map DeviceConfig.images

/-- `Config::remove_image`: removes the identifier from the record and from
the collection registered under the serial argument; `false` when no record
exists. -/
def remove_image (st : ConfigState) (serial : String) (identifier : String) :
    Bool × ConfigState :=
  match lookupA st.loaded_configs serial with
  | none => (false, st)
  | some cfg =>
    let cfg' := { cfg with images := removeA cfg.images identifier }
    let st1 := { st with loaded_configs := insertA st.loaded_configs serial cfg' }
    (true, remove_from_collection st1 serial identifier)

/-- `Config::sync_images`: reconciles the record for the serial, if any. -/
def sync_images (st : ConfigState) (serial : String) : ConfigState :=
  match lookupA st.loaded_configs serial with
  | none => st
  | some cfg =>
    let res := update_collection cfg st.loaded_images
    { st with
        loaded_configs := insertA st.loaded_configs serial res.1,
        loaded_images := res.2 }

/-- Modelled from the spec: `fs::rename`, overwriting the destination; fails
exactly when the source is absent. -/
def fsRename (fs : List (FileName × FileContent)) (src dst : FileName) :
    Bool × List (FileName × FileContent) :=
  match lookupA fs src with
  | none => (false, fs)
  | some c => (true, insertA (removeA fs src) dst c)

/-- `Config::disable_device_config`: renames `<serial>.json` to
`<serial>.json_disabled`; in-memory state untouched. -/
def disable_device_config (st : ConfigState) (serial : String) : Bool × ConfigState :=
  let r := fsRename st.fs ⟨serial, some "json"⟩ ⟨serial, some "json_disabled"⟩
  (r.1, { st with fs := r.2 })

/-- `Config::restore_device_config`: renames `<serial>.json_disabled` back to
`<serial>.json`; in-memory state untouched. -/
def restore_device_config (st : ConfigState) (serial : String) : Bool × ConfigState :=
  let r := fsRename st.fs ⟨serial, some "json_disabled"⟩ ⟨serial, some "json"⟩
  (r.1, { st with fs := r.2 })

/-! Basic facts about the association-list model of `HashMap`. -/

theorem lookupA_cons {κ : Type u} {α : Type v} [DecidableEq κ] (a : κ) (b : α)
    (rest : List (κ × α)) (k : κ) :
    lookupA ((a, b) :: rest) k = if a = k then some b else lookupA rest k := rfl

theorem containsKey_nil {κ : Type u} {α : Type v} [DecidableEq κ] (k : κ) :
    containsKey ([] : List (κ × α)) k = false := rfl

theorem containsKey_cons {κ : Type u} {α : Type v} [DecidableEq κ] (a : κ) (b : α)
    (rest : List (κ × α)) (k : κ) :
    containsKey ((a, b) :: rest) k = if a = k then true else containsKey rest k := by
  by_cases h : a = k <;> simp [containsKey, lookupA_cons, h]

theorem lookupA_insertA_self {κ : Type u} {α : Type v} [DecidableEq κ]
    (m : List (κ × α)) (k : κ) (v : α) :
    lookupA (insertA m k v) k = some v := by
  induction m with
  | nil => simp [insertA, lookupA]
  | cons p rest ih =>
    obtain ⟨a, b⟩ := p
    by_cases h : a = k
    · simp [insertA, h, lookupA]
    · simp [insertA, h, lookupA, ih]

theorem lookupA_insertA_ne {κ : Type u} {α : Type v} [DecidableEq κ]
    (m : List (κ × α)) (k k' : κ) (v : α) (h : k' ≠ k) :
    lookupA (insertA m k v) k' = lookupA m k' := by
  induction m with
  | nil => simp [insertA, lookupA, Ne.symm h]
  | cons p rest ih =>
    obtain ⟨a, b⟩ := p
    by_cases ha : a = k
    · have hak : a ≠ k' := by rw [ha]; exact Ne.symm h
      simp [insertA, ha, lookupA_cons, Ne.symm h, hak]
    · by_cases hak : a = k'
      · simp [insertA, ha, lookupA_cons, hak, h]
      · simp [insertA, ha, lookupA_cons, hak, ih]

theorem insertA_self_of_lookup {κ : Type u} {α : Type v} [DecidableEq κ]
    (m : List (κ × α)) (k : κ) (v : α) (h : lookupA m k = some v) :
    insertA m k v = m := by
  induction m with
  | nil => simp [lookupA] at h
  | cons p rest ih =>
    obtain ⟨a, b⟩ := p
    by_cases ha : a = k
    · simp [lookupA_cons, ha] at h
      subst ha; subst h
      simp [insertA]
    · simp [lookupA_cons, ha] at h
      simp [insertA, ha, ih h]

theorem insertA_insertA_same {κ : Type u} {α : Type v} [DecidableEq κ]
    (m : List (κ × α)) (k : κ) (v : α) :
    insertA (insertA m k v) k v = insertA m k v :=
  insertA_self_of_lookup _ _ _ (lookupA_insertA_self m k v)

theorem containsKey_insertA_self {κ : Type u} {α : Type v} [DecidableEq κ]
    (m : List (κ × α)) (k : κ) (v : α) :
    containsKey (insertA m k v) k = true := by
  simp [containsKey, lookupA_insertA_self]

theorem containsKey_insertA_ne {κ : Type u} {α : Type v} [DecidableEq κ]
    (m : List (κ × α)) (k k' : κ) (v : α) (h : k' ≠ k) :
    containsKey (insertA m k v) k' = containsKey m k' := by
  simp [containsKey, lookupA_insertA_ne _ _ _ _ h]

theorem containsKey_insertA_mono {κ : Type u} {α : Type v} [DecidableEq κ]
    (m : List (κ × α)) (k k' : κ) (v : α) (h : containsKey m k' = true) :
    containsKey (insertA m k v) k' = true := by
  by_cases hk : k' = k
  · subst hk; exact containsKey_insertA_self m k' v
  · rw [containsKey_insertA_ne _ _ _ _ hk]; exact h

theorem lookupA_mem {κ : Type u} {α : Type v} [DecidableEq κ]
    (m : List (κ × α)) (k : κ) (v : α) (h : lookupA m k = some v) :
    (k, v) ∈ m := by
  induction m with
  | nil => simp [lookupA] at h
  | cons p rest ih =>
    obtain ⟨a, b⟩ := p
    by_cases ha : a = k
    · simp [lookupA_cons, ha] at h
      subst ha; subst h
      exact List.mem_cons_self _ _
    · simp [lookupA_cons, ha] at h
      exact List.mem_cons_of_mem _ (ih h)

theorem mem_containsKey {κ : Type u} {α : Type v} [DecidableEq κ]
    (m : List (κ × α)) (k : κ) (v : α) (h : (k, v) ∈ m) :
    containsKey m k = true := by
  induction m with
  | nil => simp at h
  | cons p rest ih =>
    obtain ⟨a, b⟩ := p
    rcases List.mem_cons.mp h with h1 | h2
    · have : a = k := (congrArg Prod.fst h1).symm
      simp [containsKey_cons, this]
    · by_cases ha : a = k
      · simp [containsKey_cons, ha]
      · simp [containsKey_cons, ha, ih h2]

theorem containsKey_exists {κ : Type u} {α : Type v} [DecidableEq κ]
    (m : List (κ × α)) (k : κ) (h : containsKey m k = true) :
    ∃ v, (k, v) ∈ m := by
  unfold containsKey at h
  obtain ⟨v, hv⟩ := Option.isSome_iff_exists.mp h
  exact ⟨v, lookupA_mem m k v hv⟩

theorem mem_insertA {κ : Type u} {α : Type v} [DecidableEq κ]
    (m : List (κ × α)) (k : κ) (v : α) (p : κ × α) (h : p ∈ insertA m k v) :
    p ∈ m ∨ p = (k, v) := by
  induction m with
  | nil => simp [insertA] at h; right; exact h
  | cons q rest ih =>
    obtain ⟨a, b⟩ := q
    by_cases ha : a = k
    · simp only [insertA, ha, if_pos rfl] at h
      rcases List.mem_cons.mp h with h1 | h2
      · right; exact h1
      · left; exact List.mem_cons_of_mem _ h2
    · simp only [insertA, if_neg ha] at h
      rcases List.mem_cons.mp h with h1 | h2
      · left; rw [h1]; exact List.mem_cons_self _ _
      · rcases ih h2 with h3 | h3
        · left; exact List.mem_cons_of_mem _ h3
        · right; exact h3

theorem mem_keys_insertA {κ : Type u} {α : Type v} [DecidableEq κ]
    (m : List (κ × α)) (k : κ) (v : α) (x : κ)
    (h : x ∈ (insertA m k v).map Prod.fst) :
    x ∈ m.map Prod.fst ∨ x = k := by
  obtain ⟨p, hp, hx⟩ := List.mem_map.mp h
  rcases mem_insertA _ _ _ _ hp with h1 | h1
  · exact Or.inl (List.mem_map.mpr ⟨p, h1, hx⟩)
  · right; rw [← hx, h1]

theorem insertA_cons {κ : Type u} {α : Type v} [DecidableEq κ]
    (a : κ) (b : α) (rest : List (κ × α)) (k : κ) (v : α) :
    insertA ((a, b) :: rest) k v =
      if a = k then (k, v) :: rest else (a, b) :: insertA rest k v := rfl

theorem removeA_cons {κ : Type u} {α : Type v} [DecidableEq κ]
    (a : κ) (b : α) (rest : List (κ × α)) (k : κ) :
    removeA ((a, b) :: rest) k = if a = k then rest else (a, b) :: removeA rest k := rfl

theorem KeysNodup_insertA {κ : Type u} {α : Type v} [DecidableEq κ]
    (m : List (κ × α)) (k : κ) (v : α) (h : KeysNodup m) :
    KeysNodup (insertA m k v) := by
  induction m with
  | nil => simp [KeysNodup, insertA]
  | cons p rest ih =>
    obtain ⟨a, b⟩ := p
    rw [KeysNodup, List.map_cons, List.nodup_cons] at h
    by_cases ha : a = k
    · subst ha
      rw [KeysNodup, insertA_cons, if_pos rfl]
      simp only [List.map_cons, List.nodup_cons]
      exact h
    · rw [KeysNodup, insertA_cons, if_neg ha]
      simp only [List.map_cons, List.nodup_cons]
      constructor
      · intro hmem
        rcases mem_keys_insertA _ _ _ _ hmem with h1 | h1
        · exact h.1 h1
        · exact ha h1
      · exact ih h.2

theorem lookupA_eq_none_of_not_mem_keys {κ : Type u} {α : Type v} [DecidableEq κ]
    (m : List (κ × α)) (k : κ) (h : k ∉ m.map Prod.fst) :
    lookupA m k = none := by
  induction m with
  | nil => rfl
  | cons p rest ih =>
    obtain ⟨a, b⟩ := p
    simp only [List.map_cons, List.mem_cons] at h
    push_neg at h
    rw [lookupA_cons, if_neg (Ne.symm h.1), ih h.2]

theorem countKey_eq_zero_of_not_mem_keys {κ : Type u} {α : Type v} [DecidableEq κ]
    (m : List (κ × α)) (k : κ) (h : k ∉ m.map Prod.fst) :
    countKey m k = 0 := by
  induction m with
  | nil => rfl
  | cons p rest ih =>
    obtain ⟨a, b⟩ := p
    simp only [List.map_cons, List.mem_cons] at h
    push_neg at h
    rw [countKey]
    simp only [List.filter_cons, decide_eq_true_eq]
    rw [if_neg (fun hh => h.1 hh.symm)]
    exact ih h.2

theorem countKey_eq_one {κ : Type u} {α : Type v} [DecidableEq κ]
    (m : List (κ × α)) (k : κ) (hn : KeysNodup m) (hc : containsKey m k = true) :
    countKey m k = 1 := by
  induction m with
  | nil => simp [containsKey, lookupA] at hc
  | cons p rest ih =>
    obtain ⟨a, b⟩ := p
    rw [KeysNodup, List.map_cons, List.nodup_cons] at hn
    by_cases ha : a = k
    · subst ha
      rw [countKey]
      simp only [List.filter_cons, decide_eq_true_eq]
      rw [if_pos trivial, List.length_cons]
      have h0 : countKey rest a = 0 := countKey_eq_zero_of_not_mem_keys rest a hn.1
      rw [countKey] at h0
      rw [h0]
    · rw [containsKey_cons, if_neg ha] at hc
      rw [countKey]
      simp only [List.filter_cons, decide_eq_true_eq]
      rw [if_neg ha]
      exact ih hn.2 hc

theorem removeA_of_not_contains {κ : Type u} {α : Type v} [DecidableEq κ]
    (m : List (κ × α)) (k : κ) (h : containsKey m k = false) :
    removeA m k = m := by
  induction m with
  | nil => rfl
  | cons p rest ih =>
    obtain ⟨a, b⟩ := p
    rw [containsKey_cons] at h
    by_cases ha : a = k
    · rw [if_pos ha] at h; simp at h
    · rw [if_neg ha] at h
      rw [removeA, if_neg ha, ih h]

theorem lookupA_removeA_self {κ : Type u} {α : Type v} [DecidableEq κ]
    (m : List (κ × α)) (k : κ) (hn : KeysNodup m) :
    lookupA (removeA m k) k = none := by
  induction m with
  | nil => rfl
  | cons p rest ih =>
    obtain ⟨a, b⟩ := p
    rw [KeysNodup, List.map_cons, List.nodup_cons] at hn
    by_cases ha : a = k
    · rw [removeA, if_pos ha]
      subst ha
      exact lookupA_eq_none_of_not_mem_keys rest a hn.1
    · rw [removeA, if_neg ha, lookupA_cons, if_neg ha]
      exact ih hn.2

theorem lookupA_removeA_ne {κ : Type u} {α : Type v} [DecidableEq κ]
    (m : List (κ × α)) (k k' : κ) (h : k' ≠ k) :
    lookupA (removeA m k) k' = lookupA m k' := by
  induction m with
  | nil => rfl
  | cons p rest ih =>
    obtain ⟨a, b⟩ := p
    by_cases ha : a = k
    · rw [removeA, if_pos ha, lookupA_cons, if_neg (by rw [ha]; exact Ne.symm h)]
    · rw [removeA, if_neg ha, lookupA_cons, lookupA_cons, ih]

theorem filter_insertA_of_key_false {κ : Type u} {α : Type v} [DecidableEq κ]
    (m : List (κ × α)) (k : κ) (v : α) (q : κ → Bool) (h : q k = false) :
    (insertA m k v).filter (fun p => q p.1) = m.filter (fun p => q p.1) := by
  induction m with
  | nil => simp [insertA, List.filter, h]
  | cons p rest ih =>
    obtain ⟨a, b⟩ := p
    by_cases ha : a = k
    · subst ha
      rw [insertA_cons, if_pos rfl]
      simp only [List.filter_cons]
      rw [if_neg (by simp [h]), if_neg (by simp [h])]
    · rw [insertA_cons, if_neg ha]
      simp only [List.filter_cons]
      by_cases hq : q a = true
      · rw [if_pos (by simpa using hq), if_pos (by simpa using hq), ih]
      · simp only [Bool.not_eq_true] at hq
        rw [if_neg (by simp [hq]), if_neg (by simp [hq]), ih]

/-! Facts about the two loops of the reconciliation algorithm. -/

theorem syncRTC_cons (a : String) (v : SDSerializedImage)
    (rest : List (String × SDSerializedImage)) (c : ImgColl) :
    syncRecordToCollection ((a, v) :: rest) c =
      syncRecordToCollection rest
        (if containsKey c a then c
         else
           match v.tryInto with
           | some i => insertA c a i
           | none => c) := rfl

theorem syncCTR_cons (a : String) (i : SDImage) (rest : ImgColl)
    (m : List (String × SDSerializedImage)) :
    syncCollectionToRecord ((a, i) :: rest) m =
      syncCollectionToRecord rest (if containsKey m a then m else insertA m a (SDImage.into i)) := rfl

theorem contains_syncRTC_mono (m : List (String × SDSerializedImage)) :
    ∀ (c : ImgColl) (k : String), containsKey c k = true →
      containsKey (syncRecordToCollection m c) k = true := by
  induction m with
  | nil => intro c k h; exact h
  | cons p rest ih =>
    obtain ⟨a, v⟩ := p
    intro c k h
    rw [syncRTC_cons]
    apply ih
    by_cases hc : containsKey c a = true
    · rw [if_pos hc]; exact h
    · rw [if_neg hc]
      cases htv : v.tryInto with
      | none => exact h
      | some i => exact containsKey_insertA_mono _ _ _ _ h

theorem contains_syncRTC_of_mem (m : List (String × SDSerializedImage))
    (k : String) (v : SDSerializedImage) :
    ∀ c : ImgColl, (k, v) ∈ m →
      containsKey (syncRecordToCollection m c) k = true ∨ v.tryInto = none := by
  induction m with
  | nil => intro c hm; simp at hm
  | cons p rest ih =>
    obtain ⟨a, w⟩ := p
    intro c hm
    rw [syncRTC_cons]
    rcases List.mem_cons.mp hm with h1 | h2
    · obtain ⟨rfl, rfl⟩ : k = a ∧ v = w := ⟨congrArg Prod.fst h1, congrArg Prod.snd h1⟩
      by_cases hc : containsKey c k = true
      · left; rw [if_pos hc]; exact contains_syncRTC_mono _ _ _ hc
      · rw [if_neg hc]
        cases htv : v.tryInto with
        | none => right; rfl
        | some i =>
          left
          exact contains_syncRTC_mono _ _ _ (containsKey_insertA_self c k i)
    · exact ih _ h2

theorem contains_syncCTR (c : ImgColl) (m : List (String × SDSerializedImage)) (k : String) :
    containsKey (syncCollectionToRecord c m) k = (containsKey m k || containsKey c k) := by
  induction c generalizing m with
  | nil => simp [syncCollectionToRecord, containsKey_nil]
  | cons p rest ih =>
    obtain ⟨a, i⟩ := p
    rw [syncCTR_cons, ih]
    by_cases hak : a = k
    · subst hak
      rw [containsKey_cons, if_pos rfl]
      by_cases hm : containsKey m a = true
      · rw [if_pos hm, hm]; simp
      · rw [if_neg hm, containsKey_insertA_self]; simp
    · rw [containsKey_cons, if_neg hak]
      by_cases hm : containsKey m a = true
      · rw [if_pos hm]
      · rw [if_neg hm, containsKey_insertA_ne _ _ _ _ (Ne.symm hak)]

theorem mem_syncCTR (c : ImgColl) (p : String × SDSerializedImage) :
    ∀ m : List (String × SDSerializedImage), p ∈ syncCollectionToRecord c m →
      p ∈ m ∨ containsKey c p.1 = true := by
  induction c with
  | nil => intro m h; left; exact h
  | cons q rest ih =>
    obtain ⟨a, i⟩ := q
    intro m h
    rw [syncCTR_cons] at h
    rcases ih _ h with h1 | h1
    · by_cases hm : containsKey m a = true
      · rw [if_pos hm] at h1; left; exact h1
      · rw [if_neg hm] at h1
        rcases mem_insertA _ _ _ _ h1 with h2 | h2
        · left; exact h2
        · right
          have hpa : p.1 = a := congrArg Prod.fst h2
          rw [containsKey_cons, hpa, if_pos rfl]
    · right
      rw [containsKey_cons]
      by_cases hak : a = p.1
      · rw [if_pos hak]
      · rw [if_neg hak]; exact h1

theorem syncRTC_fixed (m : List (String × SDSerializedImage)) (c : ImgColl)
    (h : ∀ p ∈ m, containsKey c (Prod.fst p) = true ∨ SDSerializedImage.tryInto p.2 = none) :
    syncRecordToCollection m c = c := by
  induction m with
  | nil => rfl
  | cons q rest ih =>
    obtain ⟨a, v⟩ := q
    rw [syncRTC_cons]
    have hq := h (a, v) (List.mem_cons_self _ _)
    have hbranch : (if containsKey c a then c
        else match v.tryInto with | some i => insertA c a i | none => c) = c := by
      rcases hq with h1 | h1
      · rw [if_pos h1]
      · by_cases hc : containsKey c a = true
        · rw [if_pos hc]
        · rw [if_neg hc, h1]
    rw [hbranch]
    exact ih (fun p hp => h p (List.mem_cons_of_mem _ hp))

theorem syncCTR_fixed (c : ImgColl) (m : List (String × SDSerializedImage))
    (h : ∀ p ∈ c, containsKey m (Prod.fst p) = true) :
    syncCollectionToRecord c m = m := by
  induction c with
  | nil => rfl
  | cons q rest ih =>
    obtain ⟨a, i⟩ := q
    rw [syncCTR_cons, if_pos (h (a, i) (List.mem_cons_self _ _))]
    exact ih (fun p hp => h p (List.mem_cons_of_mem _ hp))

theorem KeysNodup_syncCTR (c : ImgColl) :
    ∀ m : List (String × SDSerializedImage), KeysNodup m →
      KeysNodup (syncCollectionToRecord c m) := by
  induction c with
  | nil => intro m h; exact h
  | cons q rest ih =>
    obtain ⟨a, i⟩ := q
    intro m h
    rw [syncCTR_cons]
    apply ih
    by_cases hm : containsKey m a = true
    · rw [if_pos hm]; exact h
    · rw [if_neg hm]; exact KeysNodup_insertA _ _ _ h

/-! Facts about `update_collection` as a whole. -/

theorem update_collection_of_lookup_none (cfg : DeviceConfig) (colls : List (String × ImgColl))
    (h : lookupA colls cfg.serial = none) :
    update_collection cfg colls = (cfg, colls) := by
  simp [update_collection, h]

theorem update_collection_of_lookup (cfg : DeviceConfig) (colls : List (String × ImgColl))
    (coll : ImgColl) (h : lookupA colls cfg.serial = some coll) :
    update_collection cfg colls =
      ({ cfg with
           images := syncCollectionToRecord (syncRecordToCollection cfg.images coll) cfg.images },
       insertA colls cfg.serial (syncRecordToCollection cfg.images coll)) := by
  simp [update_collection, h]

theorem update_collection_pid (cfg : DeviceConfig) (colls : List (String × ImgColl)) :
    (update_collection cfg colls).1.pid = cfg.pid := by
  cases hl : lookupA colls cfg.serial with
  | none => rw [update_collection_of_lookup_none _ _ hl]
  | some coll => rw [update_collection_of_lookup _ _ _ hl]

theorem update_collection_serial (cfg : DeviceConfig) (colls : List (String × ImgColl)) :
    (update_collection cfg colls).1.serial = cfg.serial := by
  cases hl : lookupA colls cfg.serial with
  | none => rw [update_collection_of_lookup_none _ _ hl]
  | some coll => rw [update_collection_of_lookup _ _ _ hl]

theorem contains_update_collection_images (cfg : DeviceConfig)
    (colls : List (String × ImgColl)) (k : String)
    (h : containsKey cfg.images k = true) :
    containsKey (update_collection cfg colls).1.images k = true := by
  cases hl : lookupA colls cfg.serial with
  | none => rw [update_collection_of_lookup_none _ _ hl]; exact h
  | some coll =>
    rw [update_collection_of_lookup _ _ _ hl]
    show containsKey
      (syncCollectionToRecord (syncRecordToCollection cfg.images coll) cfg.images) k = true
    rw [contains_syncCTR, h]
    rfl

theorem KeysNodup_update_collection_images (cfg : DeviceConfig)
    (colls : List (String × ImgColl)) (h : KeysNodup cfg.images) :
    KeysNodup (update_collection cfg colls).1.images := by
  cases hl : lookupA colls cfg.serial with
  | none => rw [update_collection_of_lookup_none _ _ hl]; exact h
  | some coll =>
    rw [update_collection_of_lookup _ _ _ hl]
    exact KeysNodup_syncCTR _ _ h

/-- C3: Reconciliation (`update_collection`) is idempotent: for every record and
collection state, running it twice in a row produces the same record and
collection as running it once — the second run makes no further change. -/
theorem update_collection_idem (cfg : DeviceConfig) (colls : List (String × ImgColl)) :
    update_collection (update_collection cfg colls).1 (update_collection cfg colls).2 =
      update_collection cfg colls := by
  cases hl : lookupA colls cfg.serial with
  | none =>
    simp only [update_collection_of_lookup_none _ _ hl]
  | some coll =>
    have hA : syncRecordToCollection
        (syncCollectionToRecord (syncRecordToCollection cfg.images coll) cfg.images)
        (syncRecordToCollection cfg.images coll) = syncRecordToCollection cfg.images coll := by
      apply syncRTC_fixed
      intro p hp
      obtain ⟨pk, pv⟩ := p
      rcases mem_syncCTR _ _ _ hp with h1 | h1
      · exact contains_syncRTC_of_mem cfg.images pk pv coll h1
      · exact Or.inl h1
    have hB : syncCollectionToRecord (syncRecordToCollection cfg.images coll)
        (syncCollectionToRecord (syncRecordToCollection cfg.images coll) cfg.images) =
        syncCollectionToRecord (syncRecordToCollection cfg.images coll) cfg.images := by
      apply syncCTR_fixed
      intro p hp
      obtain ⟨pk, pv⟩ := p
      rw [contains_syncCTR, mem_containsKey _ _ _ hp, Bool.or_true]
    simp only [update_collection_of_lookup _ _ _ hl]
    have hl2 : lookupA (insertA colls cfg.serial (syncRecordToCollection cfg.images coll))
        cfg.serial = some (syncRecordToCollection cfg.images coll) := lookupA_insertA_self _ _ _
    simp only [update_collection, hl2, hA, hB, insertA_insertA_same]

/-- C9: For a device whose serial has no entry in the collection map,
`update_collection` leaves the record and the collection map completely
unchanged — it never creates the missing collection — and therefore
`sync_images` and the reconcile step of `save_device_config` leave the
record map and the collection map as they were. -/
theorem update_collection_missing_coll_noop (cfg : DeviceConfig)
    (colls : List (String × ImgColl)) (h : lookupA colls cfg.serial = none) :
    update_collection cfg colls = (cfg, colls)
    ∧ ∀ st serial, lookupA st.loaded_configs serial = some cfg →
        st.loaded_images = colls →
        sync_images st serial = st
        ∧ (save_device_config st serial).2.loaded_configs = st.loaded_configs
        ∧ (save_device_config st serial).2.loaded_images = st.loaded_images := by
  refine ⟨update_collection_of_lookup_none _ _ h, ?_⟩
  intro st serial hlc hli
  subst hli
  have hins : insertA st.loaded_configs serial cfg = st.loaded_configs :=
    insertA_self_of_lookup _ _ _ hlc
  refine ⟨?_, ?_, ?_⟩
  · simp only [sync_images, hlc, update_collection_of_lookup_none _ _ h, hins]
  · simp only [save_device_config, hlc, update_collection_of_lookup_none _ _ h, hins]
  · simp only [save_device_config, hlc, update_collection_of_lookup_none _ _ h, hins]

def C9cfg : DeviceConfig :=
  ⟨0, 0, "s", 0, 0, [("i", SDSerializedImage.ok ⟨"d", (72, 72)⟩)], []⟩

def C9st : ConfigState := ⟨[], [("s", C9cfg)], [], [], []⟩

theorem update_collection_missing_coll_noop_witness :
    update_collection C9cfg [] = (C9cfg, [])
    ∧ sync_images C9st "s" = C9st
    ∧ (save_device_config C9st "s").2.loaded_configs = C9st.loaded_configs
    ∧ (save_device_config C9st "s").2.loaded_images = C9st.loaded_images := by
  have h := update_collection_missing_coll_noop C9cfg [] rfl
  have h2 := h.2 C9st "s" (by decide) rfl
  exact ⟨h.1, h2.1, h2.2.1, h2.2.2⟩

/-- C6: For a serial with no registered record, `save_device_config` returns
the `DeviceNotFound` error, `get_images`, `add_image` and `add_image_encode`
return nothing, none of these operations creates a record or changes the
state, while `set_device_config` and `get_image_collection` create an entry
on demand. -/
theorem unknown_serial_ops (st : ConfigState) (serial : String)
    (h : lookupA st.loaded_configs serial = none) :
    save_device_config st serial = (Except.error ConfigError.DeviceNotFound, st)
    ∧ get_images st serial = none
    ∧ (∀ s, add_image st serial s = (none, st))
    ∧ (∀ img, add_image_encode st serial img = (none, st))
    ∧ (∀ cfg, lookupA (set_device_config st serial cfg).loaded_configs serial = some cfg)
    ∧ (lookupA st.loaded_images serial = none →
        lookupA (get_image_collection st serial).2.loaded_images serial = some ([] : ImgColl)) := by
  refine ⟨?_, ?_, ?_, ?_, ?_, ?_⟩
  · simp [save_device_config, h]
  · simp [get_images, h]
  · intro s; simp [add_image, h]
  · intro img; simp [add_image_encode, h]
  · intro cfg
    show lookupA (insertA st.loaded_configs serial cfg) serial = some cfg
    exact lookupA_insertA_self _ _ _
  · intro h2
    simp only [get_image_collection, h2]
    show lookupA (insertA st.loaded_images serial []) serial = some []
    exact lookupA_insertA_self _ _ _

def C6st : ConfigState := ⟨[], [("other", C9cfg)], [], [], []⟩

def C6cfg : DeviceConfig := ⟨1, 99, "x", 3, 0, [], []⟩

theorem unknown_serial_ops_witness :
    save_device_config C6st "x" = (Except.error ConfigError.DeviceNotFound, C6st)
    ∧ get_images C6st "x" = none
    ∧ add_image C6st "x" "abc" = (none, C6st)
    ∧ add_image_encode C6st "x" ⟨"raw"⟩ = (none, C6st)
    ∧ lookupA (set_device_config C6st "x" C6cfg).loaded_configs "x" = some C6cfg
    ∧ lookupA (get_image_collection C6st "x").2.loaded_images "x" = some ([] : ImgColl) := by
  have h := unknown_serial_ops C6st "x" (by decide)
  exact ⟨h.1, h.2.1, h.2.2.1 "abc", h.2.2.2.1 ⟨"raw"⟩, h.2.2.2.2.1 C6cfg, h.2.2.2.2.2 (by decide)⟩

/-- C8: Setting a plugin setting and immediately getting it back with the same
type returns an equal value; getting a name that was never set returns
nothing; and getting returns nothing when the stored payload does not
deserialize into the requested shape. -/
theorem plugin_settings_spec {T : Type} (st : ConfigState) (name : String)
    (fromValue : Value → Option T) (toValue : T → Value) (v : T)
    (hrt : fromValue (toValue v) = some v) :
    get_plugin_settings (set_plugin_settings st name toValue v) name fromValue = some v
    ∧ (lookupA st.plugin_settings name = none →
        get_plugin_settings st name fromValue = none)
    ∧ (∀ w, lookupA st.plugin_settings name = some w → fromValue w = none →
        get_plugin_settings st name fromValue = none) := by
  refine ⟨?_, ?_, ?_⟩
  · simp only [get_plugin_settings, set_plugin_settings, write_plugin_settings,
      lookupA_insertA_self, hrt]
  · intro h; simp [get_plugin_settings, h]
  · intro w h1 h2; simp [get_plugin_settings, h1, h2]

def C8st : ConfigState := ⟨[("other", Value.null)], [], [], [], []⟩

/-- Deserializer of the sample plugin-settings payload type used to witness
the plugin-settings claim. -/
def C8from : Value → Option Int
  | .num n => some n
  | _ => none

theorem plugin_settings_spec_witness :
    get_plugin_settings (set_plugin_settings C8st "plug" Value.num (5 : Int)) "plug" C8from = some 5
    ∧ get_plugin_settings C8st "plug" C8from = none
    ∧ get_plugin_settings C8st "other" C8from = none :=
  ⟨(plugin_settings_spec C8st "plug" C8from Value.num 5 rfl).1,
   (plugin_settings_spec C8st "plug" C8from Value.num 5 rfl).2.1 rfl,
   (plugin_settings_spec C8st "other" C8from Value.num 5 rfl).2.2 Value.null rfl rfl⟩

/-- C5: `remove_image` removes the identifier from both the record's images
and the matching collection; for an existing device it returns true even when
the identifier was absent (a no-op on the record), and for an unregistered
serial it returns false and changes nothing. -/
theorem remove_image_spec (st : ConfigState) (serial identifier : String) :
    (∀ cfg, lookupA st.loaded_configs serial = some cfg →
      (remove_image st serial identifier).1 = true
      ∧ lookupA (remove_image st serial identifier).2.loaded_configs serial =
          some { cfg with images := removeA cfg.images identifier }
      ∧ (KeysNodup cfg.images → lookupA (removeA cfg.images identifier) identifier = none)
      ∧ (containsKey cfg.images identifier = false →
          lookupA (remove_image st serial identifier).2.loaded_configs serial = some cfg)
      ∧ ∀ coll, lookupA st.loaded_images serial = some coll →
          lookupA (remove_image st serial identifier).2.loaded_images serial =
            some (removeA coll identifier)
          ∧ (KeysNodup coll → lookupA (removeA coll identifier) identifier = none))
    ∧ (lookupA st.loaded_configs serial = none →
        remove_image st serial identifier = (false, st)) := by
  constructor
  · intro cfg hcfg
    have hconf : ∀ s2 : ConfigState,
        (remove_from_collection s2 serial identifier).loaded_configs = s2.loaded_configs := by
      intro s2
      cases h2 : lookupA s2.loaded_images serial with
      | none => simp [remove_from_collection, h2]
      | some c => simp [remove_from_collection, h2]
    refine ⟨?_, ?_, ?_, ?_, ?_⟩
    · simp [remove_image, hcfg]
    · simp only [remove_image, hcfg]
      rw [hconf]
      exact lookupA_insertA_self _ _ _
    · intro hn; exact lookupA_removeA_self _ _ hn
    · intro hnc
      simp only [remove_image, hcfg]
      rw [hconf, removeA_of_not_contains _ _ hnc]
      exact lookupA_insertA_self _ _ _
    · intro coll hcoll
      refine ⟨?_, fun hn => lookupA_removeA_self _ _ hn⟩
      simp only [remove_image, hcfg, remove_from_collection, hcoll]
      exact lookupA_insertA_self _ _ _
  · intro h; simp [remove_image, h]

def C5cfg : DeviceConfig :=
  ⟨0, 0, "s", 0, 0, [("i", SDSerializedImage.ok ⟨"d", (72, 72)⟩)], []⟩

def C5st : ConfigState :=
  ⟨[], [("s", C5cfg)], [("s", [("i", ⟨"d", (72, 72)⟩)])], [], []⟩

theorem remove_image_spec_witness :
    (remove_image C5st "s" "i").1 = true
    ∧ lookupA (remove_image C5st "s" "i").2.loaded_configs "s" =
        some { C5cfg with images := removeA C5cfg.images "i" }
    ∧ lookupA (removeA C5cfg.images "i") "i" = none
    ∧ lookupA (remove_image C5st "s" "i").2.loaded_images "s" =
        some (removeA [("i", (⟨"d", (72, 72)⟩ : SDImage))] "i")
    ∧ remove_image C5st "z" "i" = (false, C5st) := by
  have h := (remove_image_spec C5st "s" "i").1 C5cfg (by decide)
  have hc := h.2.2.2.2 [("i", (⟨"d", (72, 72)⟩ : SDImage))] (by decide)
  exact ⟨h.1, h.2.1, h.2.2.1 (by decide), hc.1,
    (remove_image_spec C5st "z" "i").2 (by decide)⟩

def C1cfg : DeviceConfig := ⟨0, 0, "s", 0, 0, [("i", SDSerializedImage.corrupt 0)], []⟩

def C1colls : List (String × ImgColl) := [("s", [])]

/-- C1 fails as stated: with the collection for "s" present but empty and the
record holding one serialized image that does not convert back to the runtime
form, `update_collection` leaves the identifier in the record's images while
the collection stays empty, so the two key sets differ. -/
theorem update_collection_keyset_counterexample :
    lookupA (update_collection C1cfg C1colls).2 "s" = some ([] : ImgColl)
    ∧ containsKey (update_collection C1cfg C1colls).1.images "i" = true
    ∧ ¬ sameKeys (update_collection C1cfg C1colls).1.images ([] : ImgColl) := by
  refine ⟨by decide, by decide, ?_⟩
  intro h
  exact absurd (h "i") (by decide)

/-- C1(amended): for a record R and a collection C registered under the same
serial, after one `update_collection` the key set of R.images equals the key
set of C provided every serialized image of R converts successfully to the
runtime form; ids seeded only in C always appear in R.images, ids seeded only
in R appear in C exactly when their conversion succeeds. -/
theorem update_collection_keyset (cfg : DeviceConfig) (colls : List (String × ImgColl))
    (coll : ImgColl) (h : lookupA colls cfg.serial = some coll)
    (hconv : ∀ p ∈ cfg.images, (SDSerializedImage.tryInto p.2).isSome = true) :
    lookupA (update_collection cfg colls).2 cfg.serial =
      some (syncRecordToCollection cfg.images coll)
    ∧ sameKeys (update_collection cfg colls).1.images
        (syncRecordToCollection cfg.images coll) := by
  rw [update_collection_of_lookup _ _ _ h]
  constructor
  · show lookupA (insertA colls cfg.serial (syncRecordToCollection cfg.images coll)) cfg.serial =
      some (syncRecordToCollection cfg.images coll)
    exact lookupA_insertA_self _ _ _
  · intro k
    show containsKey
        (syncCollectionToRecord (syncRecordToCollection cfg.images coll) cfg.images) k =
      containsKey (syncRecordToCollection cfg.images coll) k
    rw [contains_syncCTR]
    by_cases hm : containsKey cfg.images k = true
    · obtain ⟨v, hv⟩ := containsKey_exists _ _ hm
      rcases contains_syncRTC_of_mem cfg.images k v coll hv with h1 | h1
      · rw [hm, h1]; rfl
      · exfalso
        have h2 := hconv (k, v) hv
        rw [h1] at h2
        simp at h2
    · simp only [Bool.not_eq_true] at hm
      rw [hm, Bool.false_or]

def C1wcfg : DeviceConfig :=
  ⟨0, 0, "s", 0, 0, [("i", SDSerializedImage.ok ⟨"d", (72, 72)⟩)], []⟩

def C1wcoll : ImgColl := [("j", ⟨"e", (72, 72)⟩)]

def C1wcolls : List (String × ImgColl) := [("s", C1wcoll)]

theorem update_collection_keyset_witness :
    lookupA (update_collection C1wcfg C1wcolls).2 "s" =
      some (syncRecordToCollection C1wcfg.images C1wcoll)
    ∧ sameKeys (update_collection C1wcfg C1wcolls).1.images
        (syncRecordToCollection C1wcfg.images C1wcoll) :=
  update_collection_keyset C1wcfg C1wcolls C1wcoll (by decide) (by decide)

def C2cfg : DeviceConfig := ⟨0, 0, "s", 0, 0, [], []⟩

def C2st : ConfigState :=
  ⟨[], [("s", C2cfg)], [("s", [("k", ⟨"im", (72, 72)⟩)])],
   [(⟨"s", some "json"⟩, FileContent.malformed 7)], []⟩

/-- C2 fails as stated: on a successful read whose content fails to parse,
`reload_device_config` does return the parse error, but the store's state has
been mutated — the image collection for the serial was cleared before the
read. -/
theorem reload_parse_error_counterexample :
    (reload_device_config C2st "s").1 = Except.error (ConfigError.ParseError 7)
    ∧ (reload_device_config C2st "s").2 ≠ C2st
    ∧ lookupA (reload_device_config C2st "s").2.loaded_images "s" = some ([] : ImgColl) := by
  refine ⟨rfl, by decide, by decide⟩

/-- C2(amended): when the device file is read successfully but its content
fails to parse, `reload_device_config` returns the parse error and leaves the
record map, the file system and the plugin settings unchanged, but the
serial's image collection has been cleared (created empty if absent), because
the clearing happens before the read. -/
theorem reload_parse_error_state (st : ConfigState) (serial : String) (e : Nat)
    (h : lookupA st.fs ⟨serial, some "json"⟩ = some (FileContent.malformed e)) :
    reload_device_config st serial =
      (Except.error (ConfigError.ParseError e),
       { st with loaded_images := insertA st.loaded_images serial [] }) := by
  simp only [reload_device_config, h, parseRecord]

theorem reload_parse_error_state_witness :
    reload_device_config C2st "s" =
      (Except.error (ConfigError.ParseError 7),
       { C2st with loaded_images := insertA C2st.loaded_images "s" [] }) :=
  reload_parse_error_state C2st "s" 7 (by decide)

theorem kind_eq_of_pid_eq (c1 c2 : DeviceConfig) (h : c1.pid = c2.pid) :
    c1.kind = c2.kind := by
  rw [DeviceConfig.kind, DeviceConfig.kind, h]

theorem add_image_eq (st : ConfigState) (serial image : String) (cfg : DeviceConfig)
    (img : SDImage) (hcfg : lookupA st.loaded_configs serial = some cfg)
    (hdec : SDImage.from_base64 image (image_size cfg.kind) = some img) :
    add_image st serial image =
      (some (hash_str image),
       { st with
           loaded_configs := insertA st.loaded_configs serial
             (update_collection
               { cfg with images := insertA cfg.images (hash_str image) (SDImage.into img) }
               st.loaded_images).1,
           loaded_images :=
             (update_collection
               { cfg with images := insertA cfg.images (hash_str image) (SDImage.into img) }
               st.loaded_images).2 }) := by
  simp only [add_image, hcfg, hdec]

/-- C4: for a registered device and an encoded image string that decodes
successfully, calling `add_image` twice with the same string returns the same
content-addressed identifier both times and leaves exactly one entry for that
identifier in the record's images map. -/
theorem add_image_dedup (st : ConfigState) (serial image : String)
    (cfg : DeviceConfig) (img : SDImage)
    (hcfg : lookupA st.loaded_configs serial = some cfg)
    (hdec : SDImage.from_base64 image (image_size cfg.kind) = some img)
    (hn : KeysNodup cfg.images) :
    (add_image st serial image).1 = some (hash_str image)
    ∧ (add_image (add_image st serial image).2 serial image).1 = some (hash_str image)
    ∧ (lookupA (add_image (add_image st serial image).2 serial image).2.loaded_configs
        serial).isSome = true
    ∧ ∀ c2,
        lookupA (add_image (add_image st serial image).2 serial image).2.loaded_configs serial
          = some c2 →
        countKey c2.images (hash_str image) = 1 := by
  have e1 := add_image_eq st serial image cfg img hcfg hdec
  have f2 : ((update_collection
      { cfg with images := insertA cfg.images (hash_str image) (SDImage.into img) }
      st.loaded_images).1).kind = cfg.kind :=
    kind_eq_of_pid_eq _ _ (update_collection_pid _ _)
  have h1 : lookupA (add_image st serial image).2.loaded_configs serial =
      some (update_collection
        { cfg with images := insertA cfg.images (hash_str image) (SDImage.into img) }
        st.loaded_images).1 := by
    rw [e1]
    exact lookupA_insertA_self _ _ _
  have f3 : SDImage.from_base64 image (image_size ((update_collection
      { cfg with images := insertA cfg.images (hash_str image) (SDImage.into img) }
      st.loaded_images).1).kind) = some img := by
    rw [f2]; exact hdec
  have e2 := add_image_eq (add_image st serial image).2 serial image _ img h1 f3
  have h2 : lookupA (add_image (add_image st serial image).2 serial image).2.loaded_configs
      serial = some (update_collection
        { (update_collection
            { cfg with images := insertA cfg.images (hash_str image) (SDImage.into img) }
            st.loaded_images).1 with
          images := insertA ((update_collection
            { cfg with images := insertA cfg.images (hash_str image) (SDImage.into img) }
            st.loaded_images).1).images (hash_str image) (SDImage.into img) }
        (add_image st serial image).2.loaded_images).1 := by
    rw [e2]
    exact lookupA_insertA_self _ _ _
  refine ⟨by rw [e1], by rw [e2], by rw [h2]; rfl, ?_⟩
  intro c2 hc2
  rw [h2] at hc2
  have hc2' := Option.some.inj hc2
  subst hc2'
  apply countKey_eq_one
  · apply KeysNodup_update_collection_images
    apply KeysNodup_insertA
    exact KeysNodup_update_collection_images _ _ (KeysNodup_insertA _ _ _ hn)
  · apply contains_update_collection_images
    exact containsKey_insertA_self _ _ _

def C4cfg : DeviceConfig := ⟨0, 0, "s", 0, 0, [], []⟩

def C4st : ConfigState := ⟨[], [("s", C4cfg)], [], [], []⟩

theorem add_image_dedup_witness :
    (add_image C4st "s" "pix").1 = some (hash_str "pix")
    ∧ (add_image (add_image C4st "s" "pix").2 "s" "pix").1 = some (hash_str "pix")
    ∧ (lookupA (add_image (add_image C4st "s" "pix").2 "s" "pix").2.loaded_configs
        "s").isSome = true
    ∧ countKey (({ C4cfg with
          images := [("h:pix", SDSerializedImage.ok ⟨"pix", (72, 72)⟩)] } :
        DeviceConfig)).images (hash_str "pix") = 1 := by
  have h := add_image_dedup C4st "s" "pix" C4cfg ⟨"pix", (72, 72)⟩ (by decide) (by decide)
    (by decide)
  exact ⟨h.1, h.2.1, h.2.2.1, h.2.2.2 _ (by decide)⟩

theorem reloadAllAux_cons (st : ConfigState) (name : FileName) (content : FileContent)
    (rest : List (FileName × FileContent)) :
    reloadAllAux st ((name, content) :: rest) =
      if name.extIsJson then
        match parseRecord content with
        | .error e => (.error (.ParseError e), st)
        | .ok device =>
          reloadAllAux
            { st with
                loaded_configs := insertA (insertA st.loaded_configs device.serial device)
                  device.serial
                  (update_collection device (insertA st.loaded_images device.serial [])).1,
                loaded_images :=
                  (update_collection device (insertA st.loaded_images device.serial [])).2 }
            rest
      else reloadAllAux st rest := rfl

theorem reloadAllAux_fs_frame : ∀ (l : List (FileName × FileContent)) (st : ConfigState)
    (x : List (FileName × FileContent)),
    reloadAllAux { st with fs := x } l =
      ((reloadAllAux st l).1, { (reloadAllAux st l).2 with fs := x }) := by
  intro l
  induction l with
  | nil => intro st x; rfl
  | cons p rest ih =>
    intro st x
    obtain ⟨name, content⟩ := p
    rw [reloadAllAux_cons, reloadAllAux_cons]
    by_cases hj : name.extIsJson = true
    · rw [if_pos hj, if_pos hj]
      cases hp : parseRecord content with
      | error e => rfl
      | ok device =>
        exact ih
          { st with
              loaded_configs := insertA (insertA st.loaded_configs device.serial device)
                device.serial
                (update_collection device (insertA st.loaded_images device.serial [])).1,
              loaded_images :=
                (update_collection device (insertA st.loaded_images device.serial [])).2 } x
    · rw [if_neg hj, if_neg hj]
      exact ih st x

theorem reloadAllAux_filter_json : ∀ (l : List (FileName × FileContent)) (st : ConfigState),
    reloadAllAux st l = reloadAllAux st (l.filter (fun p => FileName.extIsJson p.1)) := by
  intro l
  induction l with
  | nil => intro st; rfl
  | cons p rest ih =>
    intro st
    obtain ⟨name, content⟩ := p
    rw [List.filter_cons]
    by_cases hj : name.extIsJson = true
    · rw [if_pos (by simpa using hj)]
      rw [reloadAllAux_cons, reloadAllAux_cons, if_pos hj, if_pos hj]
      cases hp : parseRecord content with
      | error e => rfl
      | ok device =>
        exact ih
          { st with
              loaded_configs := insertA (insertA st.loaded_configs device.serial device)
                device.serial
                (update_collection device (insertA st.loaded_images device.serial [])).1,
              loaded_images :=
                (update_collection device (insertA st.loaded_images device.serial [])).2 }
    · rw [if_neg (by simpa using hj)]
      rw [reloadAllAux_cons, if_neg hj]
      exact ih st

/-- C7: for a serial whose config file exists, `disable_device_config` then
`restore_device_config` both succeed, neither touches the in-memory maps, the
file ends up readable at its original name with unchanged content, and while
disabled the renamed file is excluded from `reload_device_configs`: bulk
reload behaves (on the result and the in-memory maps) exactly as if the file
were absent. -/
theorem disable_restore_roundtrip (st : ConfigState) (serial : String) (c : FileContent)
    (h : lookupA st.fs ⟨serial, some "json"⟩ = some c) :
    (disable_device_config st serial).1 = true
    ∧ (disable_device_config st serial).2.loaded_configs = st.loaded_configs
    ∧ (disable_device_config st serial).2.loaded_images = st.loaded_images
    ∧ (restore_device_config (disable_device_config st serial).2 serial).1 = true
    ∧ (restore_device_config (disable_device_config st serial).2 serial).2.loaded_configs =
        st.loaded_configs
    ∧ (restore_device_config (disable_device_config st serial).2 serial).2.loaded_images =
        st.loaded_images
    ∧ lookupA (restore_device_config (disable_device_config st serial).2 serial).2.fs
        ⟨serial, some "json"⟩ = some c
    ∧ (reload_device_configs (disable_device_config st serial).2).1 =
        (reload_device_configs { st with fs := removeA st.fs ⟨serial, some "json"⟩ }).1
    ∧ (reload_device_configs (disable_device_config st serial).2).2.loaded_configs =
        (reload_device_configs
          { st with fs := removeA st.fs ⟨serial, some "json"⟩ }).2.loaded_configs
    ∧ (reload_device_configs (disable_device_config st serial).2).2.loaded_images =
        (reload_device_configs
          { st with fs := removeA st.fs ⟨serial, some "json"⟩ }).2.loaded_images := by
  have hdis : disable_device_config st serial =
      (true, { st with fs := (insertA (removeA st.fs ⟨serial, some "json"⟩)
        ⟨serial, some "json_disabled"⟩ c) }) := by
    simp only [disable_device_config, fsRename, h]
  have hres : restore_device_config (disable_device_config st serial).2 serial =
      (true, { st with fs := (insertA (removeA (insertA (removeA st.fs ⟨serial, some "json"⟩)
          ⟨serial, some "json_disabled"⟩ c) ⟨serial, some "json_disabled"⟩)
        ⟨serial, some "json"⟩ c) }) := by
    rw [hdis]
    simp only [restore_device_config, fsRename, lookupA_insertA_self]
  have hext : FileName.extIsJson ⟨serial, some "json_disabled"⟩ = false := rfl
  have key : reload_device_configs (disable_device_config st serial).2 =
      ((reload_device_configs { st with fs := removeA st.fs ⟨serial, some "json"⟩ }).1,
       { (reload_device_configs { st with fs := removeA st.fs ⟨serial, some "json"⟩ }).2 with
           fs := (insertA (removeA st.fs ⟨serial, some "json"⟩)
             ⟨serial, some "json_disabled"⟩ c) }) := by
    rw [hdis]
    show reloadAllAux
        { st with fs := (insertA (removeA st.fs ⟨serial, some "json"⟩)
          ⟨serial, some "json_disabled"⟩ c) }
        (insertA (removeA st.fs ⟨serial, some "json"⟩) ⟨serial, some "json_disabled"⟩ c) = _
    rw [reloadAllAux_filter_json]
    rw [filter_insertA_of_key_false _ _ _ _ hext]
    rw [← reloadAllAux_filter_json]
    exact reloadAllAux_fs_frame _ { st with fs := removeA st.fs ⟨serial, some "json"⟩ } _
  refine ⟨by rw [hdis], by rw [hdis], by rw [hdis], by rw [hres], by rw [hres], by rw [hres],
    ?_, by rw [key], by rw [key], by rw [key]⟩
  rw [hres]
  exact lookupA_insertA_self _ _ _

def C7cfg : DeviceConfig := ⟨0, 0, "d1", 0, 0, [], []⟩

def C7st : ConfigState := ⟨[], [], [], [(⟨"s", some "json"⟩, FileContent.record C7cfg)], []⟩

theorem disable_restore_roundtrip_witness :
    (disable_device_config C7st "s").1 = true
    ∧ (disable_device_config C7st "s").2.loaded_configs = C7st.loaded_configs
    ∧ (disable_device_config C7st "s").2.loaded_images = C7st.loaded_images
    ∧ (restore_device_config (disable_device_config C7st "s").2 "s").1 = true
    ∧ (restore_device_config (disable_device_config C7st "s").2 "s").2.loaded_configs =
        C7st.loaded_configs
    ∧ (restore_device_config (disable_device_config C7st "s").2 "s").2.loaded_images =
        C7st.loaded_images
    ∧ lookupA (restore_device_config (disable_device_config C7st "s").2 "s").2.fs
        ⟨"s", some "json"⟩ = some (FileContent.record C7cfg)
    ∧ (reload_device_configs (disable_device_config C7st "s").2).1 =
        (reload_device_configs { C7st with fs := removeA C7st.fs ⟨"s", some "json"⟩ }).1
    ∧ (reload_device_configs (disable_device_config C7st "s").2).2.loaded_configs =
        (reload_device_configs
          { C7st with fs := removeA C7st.fs ⟨"s", some "json"⟩ }).2.loaded_configs
    ∧ (reload_device_configs (disable_device_config C7st "s").2).2.loaded_images =
        (reload_device_configs
          { C7st with fs := removeA C7st.fs ⟨"s", some "json"⟩ }).2.loaded_images :=
  disable_restore_roundtrip C7st "s" (FileContent.record C7cfg) (by decide)

/-- C10: `reload_device_configs` registers each successfully parsed record
under the `serial` field found inside the file's content, not under the
file's name: loading a single file named `a.json` whose content carries
serial `b` makes the record retrievable under `b` while nothing is registered
under `a`. -/
theorem reload_registers_content_serial (st : ConfigState) (a b : String) (d : DeviceConfig)
    (hfs : st.fs = [(⟨a, some "json"⟩, FileContent.record d)])
    (hlc : st.loaded_configs = [])
    (hser : d.serial = b) (hab : a ≠ b) :
    (reload_device_configs st).1 = Except.ok ()
    ∧ (lookupA (reload_device_configs st).2.loaded_configs b).isSome = true
    ∧ lookupA (reload_device_configs st).2.loaded_configs a = none := by
  subst hser
  have h1 : reload_device_configs st =
      reloadAllAux st [(⟨a, some "json"⟩, FileContent.record d)] := by
    rw [reload_device_configs, hfs]
  rw [h1, reloadAllAux_cons, if_pos (show FileName.extIsJson ⟨a, some "json"⟩ = true from rfl)]
  simp only [parseRecord, hlc]
  simp [reloadAllAux, insertA, lookupA, Ne.symm hab]

def C10d : DeviceConfig := ⟨0, 0, "b", 0, 0, [], []⟩

def C10st : ConfigState := ⟨[], [], [], [(⟨"a", some "json"⟩, FileContent.record C10d)], []⟩

theorem reload_registers_content_serial_witness :
    (reload_device_configs C10st).1 = Except.ok ()
    ∧ (lookupA (reload_device_configs C10st).2.loaded_configs "b").isSome = true
    ∧ lookupA (reload_device_configs C10st).2.loaded_configs "a" = none :=
  reload_registers_content_serial C10st "a" "b" C10d rfl rfl rfl (by decide)
